import Mathlib

/-!
A shallow embedding of `src/cli-parser.js` of the tilewarm repository.

JavaScript strings are modelled as `List Char`.  A JavaScript `NaN`
outcome of a numeric conversion is modelled as `none` of an `Option`.
Fallible functions (the ones that can `throw`) return `Except JsErr`.
-/

namespace Tilewarm

/-- A JavaScript string, modelled as its list of characters. -/
abbrev JStr := List Char

/-- A thrown JavaScript `Error`: its `message` and its `argumentError` flag.
Only `throwArgumentError` in the source sets the flag; an error raised by
the engine itself (e.g. a `SyntaxError` from `new Function`) leaves it
unset, modelled as `false`. -/
structure JsErr where
  message : JStr
  argumentError : Bool
deriving DecidableEq, Repr

/-- `throwArgumentError(message)` (cli-parser.js lines 159-163), as the
error value it throws. -/
def throwArgumentError (message : JStr) : JsErr :=
  { message := message, argumentError := true }

instance {ε α : Type} [DecidableEq ε] [DecidableEq α] : DecidableEq (Except ε α) :=
  fun a b =>
    match a, b with
    | .ok x, .ok y =>
      if h : x = y then .isTrue (by rw [h]) else .isFalse (by simp [h])
    | .error x, .error y =>
      if h : x = y then .isTrue (by rw [h]) else .isFalse (by simp [h])
    | .ok _, .error _ => .isFalse (by simp)
    | .error _, .ok _ => .isFalse (by simp)

/-- JavaScript `s.split(sep)` for a one-character separator `sep`. -/
def splitOnChar (sep : Char) : JStr → List JStr
  | [] => [[]]
  | c :: cs =>
    if c = sep then [] :: splitOnChar sep cs
    else (splitOnChar sep cs).modifyHead (c :: ·)

/-- JavaScript `s.indexOf(pat) !== -1`: `pat` occurs as a contiguous
substring of `s`. -/
def hasSubstr : JStr → JStr → Bool
  | [], pat => pat.isEmpty
  | c :: t, pat => pat.isPrefixOf (c :: t) || hasSubstr t pat

/-- Full match of the regular expression `\d+`: non-empty, decimal digits
only. -/
def isDigits (s : JStr) : Bool :=
  !s.isEmpty && s.all Char.isDigit

/-- The natural number a big-endian list of decimal digit characters
denotes (the empty list denotes 0). -/
def decodeDigits (s : JStr) : Nat :=
  s.foldl (fun n c => n * 10 + (c.toNat - 48)) 0

/-- JavaScript `Number(s)` on the strings the zoom grammar deals in: a
string of decimal digits denotes a natural number (`Number("") === 0`);
any other string gives `NaN` in the source, modelled as `none`. -/
def jsNumber (s : JStr) : Option Nat :=
  if s.all Char.isDigit then some (decodeDigits s) else none

/-- lodash 4 `_.range(start, stop)` with no explicit step: the step
defaults to 1 when `start < stop` and to -1 otherwise, `stop` exclusive
either way.  So `_.range(3, 10)` is `[3, …, 9]`, `_.range(4, 4)` is `[]`
and `_.range(9, 4)` is the descending `[9, 8, 7, 6, 5]`. -/
def lodashRange (start stop : Nat) : List Nat :=
  if start < stop then (List.range (stop - start)).map (start + ·)
  else (List.range (start - stop)).map (fun i => start - i)

/-- lodash `_.sortBy(nums)` with the identity iteratee: a stable ascending
sort of the numbers. -/
def sortByAsc (l : List Nat) : List Nat :=
  List.insertionSort (· ≤ ·) l

/-- `parseZoomRange` (cli-parser.js lines 183-193).  `none` models a result
contaminated by `NaN`, which cannot happen for an input the zoom grammar
has validated. -/
def parseZoomRange (zoom : JStr) : Option (List Nat) :=
  if '-' ∈ zoom then
    match splitOnChar '-' zoom with
    | p0 :: p1 :: _ =>
      match jsNumber p0, jsNumber p1 with
      | some mn, some mx => some (lodashRange mn (mx + 1))
      | _, _ => none
    | _ => none
  else
    match (splitOnChar ',' zoom).mapM jsNumber with
    | some nums => some (sortByAsc nums)
    | none => none

/-- Full match of the zoom regular expression
`^((\d+-\d+)|(\d+(,\d+)*))$` (cli-parser.js line 124). -/
def matchesZoomGrammar (s : JStr) : Bool :=
  (match splitOnChar '-' s with
   | [a, b] => isDigits a && isDigits b
   | _ => false)
  || (splitOnChar ',' s).all isDigits

/-- The decimal digit character for `d < 10`. -/
def digitChar (d : Nat) : Char :=
  match d with
  | 0 => '0'
  | 1 => '1'
  | 2 => '2'
  | 3 => '3'
  | 4 => '4'
  | 5 => '5'
  | 6 => '6'
  | 7 => '7'
  | 8 => '8'
  | _ => '9'

/-- Fuel-indexed helper for `natToStr`; the fuel always exceeds the number. -/
def natToStrAux : Nat → Nat → JStr
  | 0, _ => []
  | fuel + 1, n =>
    if n < 10 then [digitChar n]
    else natToStrAux fuel (n / 10) ++ [digitChar (n % 10)]

/-- The canonical decimal rendering of a natural number. -/
def natToStr (n : Nat) : JStr :=
  natToStrAux (n + 1) n

/-- The whitespace characters relevant here (JavaScript and JSON). -/
def isJsSpace (c : Char) : Bool :=
  c = ' ' || c = '\t' || c = '\n' || c = '\r'

/-- Drop leading whitespace. -/
def skipWs (s : JStr) : JStr :=
  s.dropWhile isJsSpace

/-- The digits of the exponent part of a `parseFloat` literal: an empty
digit run means the exponent marker is not consumed (`parseFloat("5e")`
is `5`). -/
def expDigits (u : JStr) : Int :=
  (decodeDigits (u.takeWhile Char.isDigit) : Int)

/-- The exponent after `e`/`E`, with its optional sign. -/
def expSigned : JStr → Int
  | '-' :: u => -(expDigits u)
  | '+' :: u => expDigits u
  | u => expDigits u

/-- The exponent contributed by the rest of a `parseFloat` literal. -/
def expPart : JStr → Int
  | 'e' :: t => expSigned t
  | 'E' :: t => expSigned t
  | _ => 0

/-- The syntactic pieces of a `parseFloat` literal: sign, integer digits,
fractional digits (value and count), exponent. -/
structure FloatParts where
  neg : Bool
  intPart : Nat
  fracPart : Nat
  fracLen : Nat
  exp : Int
deriving DecidableEq, Repr

/-- Scan the longest numeric prefix
`[+-]?(\d+(\.\d*)?|\.\d+)([eE][+-]?\d+)?` of `s` after leading whitespace;
`none` when there is no digit at all (`parseFloat` would give `NaN`). -/
def jsParseFloatParts (s : JStr) : Option FloatParts :=
  let s1 := s.dropWhile isJsSpace
  let signed : Bool × JStr :=
    match s1 with
    | '-' :: t => (true, t)
    | '+' :: t => (false, t)
    | t => (false, t)
  let s2 := signed.2
  let ds := s2.takeWhile Char.isDigit
  let s3 := s2.dropWhile Char.isDigit
  let fracked : JStr × JStr :=
    match s3 with
    | '.' :: t => (t.takeWhile Char.isDigit, t.dropWhile Char.isDigit)
    | t => ([], t)
  let fs := fracked.1
  if ds.isEmpty && fs.isEmpty then none
  else
    some { neg := signed.1
           intPart := decodeDigits ds
           fracPart := decodeDigits fs
           fracLen := fs.length
           exp := expPart fracked.2 }

/-- The exact rational a scanned `parseFloat` literal denotes. -/
def partsToRat (p : FloatParts) : Rat :=
  (if p.neg then -1 else 1) *
    ((p.intPart : Rat) + (p.fracPart : Rat) / (10 : Rat) ^ p.fracLen) *
    (10 : Rat) ^ p.exp

/-- JavaScript `parseFloat(s)`, as an exact rational; `none` models `NaN`.
The `Infinity` literal and double rounding are not modelled; no claim
touches them. -/
def jsParseFloat (s : JStr) : Option Rat :=
  (jsParseFloatParts s).map partsToRat

/-- The unit of a parsed buffer. -/
inductive BufferUnit where
  | kilometers
  | miles
deriving DecidableEq, Repr

/-- The value `parseBuffer` returns; `radius = none` models `NaN`. -/
structure Buffer where
  radius : Option Rat
  unit : BufferUnit
deriving DecidableEq, Repr

/-- `parseBuffer` (cli-parser.js lines 174-181): `parseFloat` for the
radius, and the suffix test `/mi$/` for the unit. -/
def parseBuffer (buffer : JStr) : Buffer :=
  { radius := jsParseFloat buffer
    unit := if List.isSuffixOf "mi".data buffer then .miles else .kilometers }

/-- The string JavaScript coerces `undefined` to. -/
def strUndefined : JStr := "undefined".data

/-- The value `parsePoint` returns; a `none` coordinate models `NaN` (or a
missing array element). -/
structure Point where
  lat : Option Rat
  lng : Option Rat
deriving DecidableEq, Repr

/-- `parsePoint` (cli-parser.js lines 165-172): `String(point)` coerces an
absent value to `"undefined"`, split on `,`, each part through
`parseFloat`. -/
def parsePoint (point : Option JStr) : Point :=
  let arr := splitOnChar ',' (point.getD strUndefined)
  let nums := arr.map jsParseFloat
  { lat := nums.getD 0 none
    lng := nums.getD 1 none }

/-- A character of a JavaScript identifier. -/
def isIdentChar (c : Char) : Bool :=
  c.isAlphanum || c = '_' || c = '$'

/-- The statement keywords `new Function('z', 'return ' + val)` rejects
where an expression atom is expected. -/
def jsReserved (w : JStr) : Bool :=
  w = "return".data || w = "var".data || w = "const".data || w = "let".data ||
  w = "if".data || w = "else".data || w = "for".data || w = "while".data ||
  w = "do".data || w = "break".data || w = "continue".data ||
  w = "switch".data || w = "case".data || w = "throw".data ||
  w = "catch".data || w = "finally".data || w = "with".data ||
  w = "debugger".data || w = "class".data || w = "enum".data ||
  w = "export".data || w = "import".data

mutual

/-- Syntax check of one primary expression: a number, an identifier or a
parenthesised expression, with optional prefix `-`, `+`, `~` or `!` and
member/call suffixes. -/
def pAtom : Nat → JStr → Option JStr
  | 0, _ => none
  | fuel + 1, s =>
    match skipWs s with
    | '-' :: t => pAtom fuel t
    | '+' :: t => pAtom fuel t
    | '!' :: t => pAtom fuel t
    | '~' :: t => pAtom fuel t
    | '(' :: t =>
      match pTernary fuel t with
      | some r =>
        match skipWs r with
        | ')' :: u => pSuffix fuel u
        | _ => none
      | none => none
    | t =>
      if !(t.takeWhile Char.isDigit).isEmpty then
        match t.dropWhile Char.isDigit with
        | '.' :: u => some (u.dropWhile Char.isDigit)
        | u => some u
      else
        let ids := t.takeWhile isIdentChar
        if ids.isEmpty || jsReserved ids then none
        else pSuffix fuel (t.dropWhile isIdentChar)

/-- Member accesses and call argument lists after a primary:
`('.' ident | '(' args ')')*`. -/
def pSuffix : Nat → JStr → Option JStr
  | 0, _ => none
  | fuel + 1, s =>
    match skipWs s with
    | '.' :: t =>
      let ids := t.takeWhile isIdentChar
      if ids.isEmpty || jsReserved ids then none
      else pSuffix fuel (t.dropWhile isIdentChar)
    | '(' :: t =>
      match skipWs t with
      | ')' :: u => pSuffix fuel u
      | u =>
        match pArgs fuel u with
        | some r => pSuffix fuel r
        | none => none
    | _ => some s

/-- Call arguments: `expr (',' expr)* ')'`. -/
def pArgs : Nat → JStr → Option JStr
  | 0, _ => none
  | fuel + 1, s =>
    match pTernary fuel s with
    | some r =>
      match skipWs r with
      | ',' :: t => pArgs fuel t
      | ')' :: t => some t
      | _ => none
    | none => none

/-- After one factor: `(('*'|'/'|'%') factor)*`. -/
def pMulRest : Nat → JStr → Option JStr
  | 0, _ => none
  | fuel + 1, s =>
    match skipWs s with
    | '*' :: t => (pAtom fuel t).bind (pMulRest fuel)
    | '/' :: t => (pAtom fuel t).bind (pMulRest fuel)
    | '%' :: t => (pAtom fuel t).bind (pMulRest fuel)
    | _ => some s

/-- A multiplicative expression. -/
def pMul : Nat → JStr → Option JStr
  | 0, _ => none
  | fuel + 1, s => (pAtom fuel s).bind (pMulRest fuel)

/-- After one term: `(('+'|'-') term)*`. -/
def pAddRest : Nat → JStr → Option JStr
  | 0, _ => none
  | fuel + 1, s =>
    match skipWs s with
    | '+' :: t => (pMul fuel t).bind (pAddRest fuel)
    | '-' :: t => (pMul fuel t).bind (pAddRest fuel)
    | _ => some s

/-- An additive expression. -/
def pAdd : Nat → JStr → Option JStr
  | 0, _ => none
  | fuel + 1, s => (pMul fuel s).bind (pAddRest fuel)

/-- After one additive expression: a chain of comparison, equality, shift,
bitwise and logical operators (precedence does not matter for a pure
syntax-validity check). -/
def pCmpRest : Nat → JStr → Option JStr
  | 0, _ => none
  | fuel + 1, s =>
    match skipWs s with
    | '<' :: '<' :: t => (pAdd fuel t).bind (pCmpRest fuel)
    | '<' :: '=' :: t => (pAdd fuel t).bind (pCmpRest fuel)
    | '<' :: t => (pAdd fuel t).bind (pCmpRest fuel)
    | '>' :: '>' :: '>' :: t => (pAdd fuel t).bind (pCmpRest fuel)
    | '>' :: '>' :: t => (pAdd fuel t).bind (pCmpRest fuel)
    | '>' :: '=' :: t => (pAdd fuel t).bind (pCmpRest fuel)
    | '>' :: t => (pAdd fuel t).bind (pCmpRest fuel)
    | '=' :: '=' :: '=' :: t => (pAdd fuel t).bind (pCmpRest fuel)
    | '=' :: '=' :: t => (pAdd fuel t).bind (pCmpRest fuel)
    | '!' :: '=' :: '=' :: t => (pAdd fuel t).bind (pCmpRest fuel)
    | '!' :: '=' :: t => (pAdd fuel t).bind (pCmpRest fuel)
    | '&' :: '&' :: t => (pAdd fuel t).bind (pCmpRest fuel)
    | '&' :: t => (pAdd fuel t).bind (pCmpRest fuel)
    | '|' :: '|' :: t => (pAdd fuel t).bind (pCmpRest fuel)
    | '|' :: t => (pAdd fuel t).bind (pCmpRest fuel)
    | '^' :: t => (pAdd fuel t).bind (pCmpRest fuel)
    | _ => some s

/-- A comparison expression. -/
def pCmp : Nat → JStr → Option JStr
  | 0, _ => none
  | fuel + 1, s => (pAdd fuel s).bind (pCmpRest fuel)

/-- A conditional expression: `cmp ('?' ternary ':' ternary)?`. -/
def pTernary : Nat → JStr → Option JStr
  | 0, _ => none
  | fuel + 1, s =>
    match pCmp fuel s with
    | some r =>
      match skipWs r with
      | '?' :: t =>
        match pTernary fuel t with
        | some r2 =>
          match skipWs r2 with
          | ':' :: u => pTernary fuel u
          | _ => none
        | none => none
      | _ => some r
    | none => none

end

/-- Whether `new Function('z', 'return ' + val)` compiles: `val` parses as
one expression (numbers, identifiers with member/call suffixes, arithmetic,
shift/bitwise/logical and comparison operators, `?:`, parentheses) with
nothing left over, and no statement keyword where an atom is expected.
This approximates the engine's grammar; no universal theorem depends on
its exact boundary — it only witnesses concrete instances such as
`"((("`, which no JavaScript expression grammar accepts. -/
def exprOk (val : JStr) : Bool :=
  match pTernary (16 * (val.length + 1)) val with
  | some rest => (skipWs rest).isEmpty
  | none => false

/-- The value `parseNumberOrZoomFunction` returns: either the constant
function closing over a parsed number, or the `Function` compiled from the
expression source (whose evaluation no claim depends on). -/
inductive ZoomFn where
  | const (n : Nat)
  | compiled (src : JStr)
deriving DecidableEq, Repr

/-- Calling a `ZoomFn` at a zoom level: the constant branch ignores its
argument; evaluation of a compiled expression is not modelled (`none`). -/
def ZoomFn.apply : ZoomFn → Int → Option Nat
  | .const n, _ => some n
  | .compiled _, _ => none

/-- Whether `Number` of a digit string denoting `n` is a finite double: an
integer is rounded to `Infinity` exactly when it is at least
`2^1024 - 2^970`, the midpoint above the largest finite double. -/
def jsFinite (n : Nat) : Bool :=
  n < 2 ^ 1024 - 2 ^ 970

/-- `assertNumber` (cli-parser.js lines 151-157).  The value of a digit
string is modelled exactly (double rounding of huge integers is not
modelled, only finiteness).  `message` is the optional second parameter;
`new Error(undefined)` carries an empty message. -/
def assertNumber (val : JStr) (message : Option JStr) : Except JsErr Nat :=
  let number := decodeDigits val
  if !jsFinite number then .error (throwArgumentError (message.getD []))
  else .ok number

/-- `parseNumberOrZoomFunction` (cli-parser.js lines 138-149).  The digit
branch (`/^\d+$/`) wraps the asserted number in a constant function; the
other branch is `new Function('z', 'return ' + val)`, which raises an
engine `SyntaxError` — untagged, `argumentError` stays `false` — when
`val` is not valid expression syntax. -/
def parseNumberOrZoomFunction (val : JStr) (message : Option JStr) :
    Except JsErr ZoomFn :=
  if isDigits val then
    (assertNumber val message).map fun number => ZoomFn.const number
  else if exprOk val then .ok (ZoomFn.compiled val)
  else .error { message := "SyntaxError".data, argumentError := false }

/-- A parsed JSON value.  Number and string lexemes are kept verbatim
(`JSON.parse` decodes them; no claim inspects decoded scalars). -/
inductive Json where
  | null
  | bool (b : Bool)
  | num (lexeme : JStr)
  | str (content : JStr)
  | arr (elems : List Json)
  | obj (fields : List (JStr × Json))

/-- A hexadecimal digit. -/
def isHexDigitCh (c : Char) : Bool :=
  c.isDigit || ('a' ≤ c && c ≤ 'f') || ('A' ≤ c && c ≤ 'F')

/-- Scan a JSON string body after the opening quote: the undecoded content
and the rest after the closing quote. -/
def jStrBody : Nat → JStr → Option (JStr × JStr)
  | 0, _ => none
  | fuel + 1, s =>
    match s with
    | '"' :: t => some ([], t)
    | '\\' :: c :: t =>
      if c = '"' || c = '\\' || c = '/' || c = 'b' || c = 'f' ||
          c = 'n' || c = 'r' || c = 't' then
        (jStrBody fuel t).map fun br => ('\\' :: c :: br.1, br.2)
      else if c = 'u' then
        match t with
        | h1 :: h2 :: h3 :: h4 :: u =>
          if isHexDigitCh h1 && isHexDigitCh h2 && isHexDigitCh h3 && isHexDigitCh h4 then
            (jStrBody fuel u).map fun br =>
              ('\\' :: 'u' :: h1 :: h2 :: h3 :: h4 :: br.1, br.2)
          else none
        | _ => none
      else none
    | c :: t =>
      if c.toNat ≥ 32 then (jStrBody fuel t).map fun br => (c :: br.1, br.2)
      else none
    | [] => none

/-- Scan the exponent of a JSON number (already after `e`/`E`). -/
def jNumExpSigned (e : Char) (t : JStr) : Option (JStr × JStr) :=
  let signed : JStr × JStr :=
    match t with
    | '+' :: u => (['+'], u)
    | '-' :: u => (['-'], u)
    | u => ([], u)
  let ds := signed.2.takeWhile Char.isDigit
  if ds.isEmpty then none
  else some (e :: signed.1 ++ ds, signed.2.dropWhile Char.isDigit)

/-- Scan the optional exponent of a JSON number. -/
def jNumExp : JStr → Option (JStr × JStr)
  | 'e' :: t => jNumExpSigned 'e' t
  | 'E' :: t => jNumExpSigned 'E' t
  | t => some ([], t)

/-- Scan the optional fraction and exponent of a JSON number. -/
def jNumFrac : JStr → Option (JStr × JStr)
  | '.' :: t =>
    let ds := t.takeWhile Char.isDigit
    if ds.isEmpty then none
    else
      (jNumExp (t.dropWhile Char.isDigit)).map fun er => ('.' :: ds ++ er.1, er.2)
  | t => jNumExp t

/-- Scan a JSON number lexeme
`-?(0|[1-9]\d*)(\.\d+)?([eE][+-]?\d+)?` at the head of `s`. -/
def jNum (s : JStr) : Option (JStr × JStr) :=
  let signed : JStr × JStr :=
    match s with
    | '-' :: t => (['-'], t)
    | t => ([], t)
  match signed.2 with
  | '0' :: t => (jNumFrac t).map fun fr => (signed.1 ++ '0' :: fr.1, fr.2)
  | c :: t =>
    if c.isDigit then
      let ds := t.takeWhile Char.isDigit
      (jNumFrac (t.dropWhile Char.isDigit)).map fun fr =>
        (signed.1 ++ c :: ds ++ fr.1, fr.2)
    else none
  | [] => none

mutual

/-- Parse one JSON value (leading whitespace already skipped). -/
def jVal : Nat → JStr → Option (Json × JStr)
  | 0, _ => none
  | fuel + 1, s =>
    match s with
    | 'n' :: 'u' :: 'l' :: 'l' :: t => some (.null, t)
    | 't' :: 'r' :: 'u' :: 'e' :: t => some (.bool true, t)
    | 'f' :: 'a' :: 'l' :: 's' :: 'e' :: t => some (.bool false, t)
    | '"' :: t => (jStrBody (t.length + 1) t).map fun br => (.str br.1, br.2)
    | '[' :: t =>
      match skipWs t with
      | ']' :: u => some (.arr [], u)
      | u => (jElems fuel u).map fun er => (.arr er.1, er.2)
    | '\x7b' :: t =>
      match skipWs t with
      | '\x7d' :: u => some (.obj [], u)
      | u => (jFields fuel u).map fun fr => (.obj fr.1, fr.2)
    | t => (jNum t).map fun nr => (.num nr.1, nr.2)

/-- Parse `value (',' value)* ']'` inside an array. -/
def jElems : Nat → JStr → Option (List Json × JStr)
  | 0, _ => none
  | fuel + 1, s =>
    match jVal fuel (skipWs s) with
    | some (v, r) =>
      match skipWs r with
      | ',' :: t => (jElems fuel t).map fun er => (v :: er.1, er.2)
      | ']' :: t => some ([v], t)
      | _ => none
    | none => none

/-- Parse `'"' key '"' ':' value (',' …)* '}'` inside an object. -/
def jFields : Nat → JStr → Option (List (JStr × Json) × JStr)
  | 0, _ => none
  | fuel + 1, s =>
    match s with
    | '"' :: t =>
      match jStrBody (t.length + 1) t with
      | some (k, r) =>
        match skipWs r with
        | ':' :: u =>
          match jVal fuel (skipWs u) with
          | some (v, r2) =>
            match skipWs r2 with
            | ',' :: w => (jFields fuel (skipWs w)).map fun fr => ((k, v) :: fr.1, fr.2)
            | '\x7d' :: w => some ([(k, v)], w)
            | _ => none
          | none => none
        | _ => none
      | none => none
    | _ => none

end

/-- JavaScript `JSON.parse(content)`: `none` models the `SyntaxError` the
source catches and re-throws as an `ArgumentError`. -/
def jsonParse (content : JStr) : Option Json :=
  match jVal (2 * content.length + 8) (skipWs content) with
  | some (v, rest) => if (skipWs rest).isEmpty then some v else none
  | none => none

/-- A filesystem, for `fs.readFileSync`: path to content; `none` when the
file cannot be read. -/
abbrev FileSystem := JStr → Option JStr

/-- JavaScript truthiness of an optional string (`undefined`, `null` and
the empty string are falsy). -/
def jsTruthy : Option JStr → Bool
  | none => false
  | some s => !s.isEmpty

/-- `parseInput` (cli-parser.js lines 195-208).  A falsy path short-circuits
to `null` before any filesystem access; an unreadable file raises an
untagged engine error; a JSON parse failure is caught and re-thrown as
`ArgumentError("Invalid JSON")`; a parsed object is returned unchanged. -/
def parseInput (fs : FileSystem) (input : Option JStr) :
    Except JsErr (Option Json) :=
  if !jsTruthy input then .ok none
  else
    match fs (input.getD []) with
    | none => .error { message := "ENOENT".data, argumentError := false }
    | some content =>
      match jsonParse content with
      | none => .error (throwArgumentError "Invalid JSON".data)
      | some obj => .ok (some obj)

/-- `assertTemplateUrlParameter` (cli-parser.js lines 220-224). -/
def assertTemplateUrlParameter (template param : JStr) : Except JsErr Unit :=
  if !hasSubstr template param then
    .error (throwArgumentError ("Template url is missing parameter: ".data ++ param))
  else .ok ()

/-- `/^https?\:/.test(template)`. -/
def startsWithScheme (template : JStr) : Bool :=
  List.isPrefixOf "http:".data template || List.isPrefixOf "https:".data template

/-- `assertTemplateUrl` (cli-parser.js lines 210-218). -/
def assertTemplateUrl (template : JStr) : Except JsErr Unit := do
  if !startsWithScheme template then
    throw (throwArgumentError "Invalid url".data)
  assertTemplateUrlParameter template "\x7bx\x7d".data
  assertTemplateUrlParameter template "\x7by\x7d".data
  assertTemplateUrlParameter template "\x7bz\x7d".data

/-- The raw option bag (`RawOptions`): `none` models an absent property
(JavaScript `undefined`, and the `null` default of `input`, which behaves
identically everywhere the bag is read).  `headers` is the one nested
object; yargs declares no flag for it, so user bags never set it. -/
structure Opts where
  point : Option JStr := none
  buffer : Option JStr := none
  zoom : Option JStr := none
  list : Option Bool := none
  input : Option JStr := none
  method : Option JStr := none
  headers : Option (List (JStr × JStr)) := none
  concurrency : Option JStr := none
  verbose : Option Bool := none
  maxRetries : Option JStr := none
  retryBaseTimeout : Option JStr := none
  requestTimeout : Option Nat := none
  url : Option JStr := none
deriving DecidableEq, Repr

/-- `defaultOpts` (cli-parser.js lines 7-20), the module-level object. -/
def defaultOpts : Opts :=
  { buffer := some "0km".data
    zoom := some "3-9".data
    list := some false
    input := none
    method := some "GET".data
    headers := some []
    concurrency := some "5".data
    verbose := some false
    maxRetries := some "5".data
    retryBaseTimeout := some "5000".data
    requestTimeout := some 600000 }

/-- One property of lodash `_.merge(dst, src)`: a defined source value
overwrites the destination, an undefined one leaves it. -/
def mergeField {α : Type} (dst src : Option α) : Option α :=
  match src with
  | some v => some v
  | none => dst

/-- lodash `_.merge(dst, src)` on two option bags (cli-parser.js line 24),
property by property.  The result is also the new value of `dst`, which
`_.merge` mutates in place. -/
def lodashMerge (dst src : Opts) : Opts :=
  { point := mergeField dst.point src.point
    buffer := mergeField dst.buffer src.buffer
    zoom := mergeField dst.zoom src.zoom
    list := mergeField dst.list src.list
    input := mergeField dst.input src.input
    method := mergeField dst.method src.method
    headers := mergeField dst.headers src.headers
    concurrency := mergeField dst.concurrency src.concurrency
    verbose := mergeField dst.verbose src.verbose
    maxRetries := mergeField dst.maxRetries src.maxRetries
    retryBaseTimeout := mergeField dst.retryBaseTimeout src.retryBaseTimeout
    requestTimeout := mergeField dst.requestTimeout src.requestTimeout
    url := mergeField dst.url src.url }

/-- The `CanonicalConfig` object `validateAndTransformOpts` assembles:
the raw bag's properties overwritten by the transformed fields. -/
structure Config where
  url : Option JStr
  buffer : Buffer
  zoom : Option (List Nat)
  point : Point
  input : Option Json
  concurrency : ZoomFn
  maxRetries : ZoomFn
  retryBaseTimeout : ZoomFn
  method : Option JStr
  headers : Option (List (JStr × JStr))
  requestTimeout : Option Nat
  list : Option Bool
  verbose : Option Bool

/-- `validateAndTransformOpts` (cli-parser.js lines 119-136): the
point/buffer check, the zoom grammar check and `assertTemplateUrl` run
first, in that order; then the transformed fields are computed in the
order of the object literal of line 127.  A regular-expression test on an
absent field receives the coerced string `"undefined"`. -/
def validateAndTransformOpts (fs : FileSystem) (opts : Opts) :
    Except JsErr Config := do
  if jsTruthy opts.point && !jsTruthy opts.buffer then
    throw (throwArgumentError "When --point is set, --buffer must also be set".data)
  if !matchesZoomGrammar (opts.zoom.getD strUndefined) then
    throw (throwArgumentError "Invalid \"zoom\" argument".data)
  assertTemplateUrl (opts.url.getD strUndefined)
  let buffer := parseBuffer (opts.buffer.getD strUndefined)
  let zoom := parseZoomRange (opts.zoom.getD strUndefined)
  let point := parsePoint opts.point
  let input ← parseInput fs opts.input
  let concurrency ← parseNumberOrZoomFunction (opts.concurrency.getD strUndefined) none
  let maxRetries ← parseNumberOrZoomFunction (opts.maxRetries.getD strUndefined) none
  let retryBaseTimeout ← parseNumberOrZoomFunction (opts.retryBaseTimeout.getD strUndefined) none
  return { url := opts.url
           buffer := buffer
           zoom := zoom
           point := point
           input := input
           concurrency := concurrency
           maxRetries := maxRetries
           retryBaseTimeout := retryBaseTimeout
           method := opts.method
           headers := opts.headers
           requestTimeout := opts.requestTimeout
           list := opts.list
           verbose := opts.verbose }

/-- `getOpts` (cli-parser.js lines 22-26), with the yargs-produced user
option bag passed in explicitly.  `_.merge(defaultOpts, userOpts)` writes
into the module-level `defaultOpts`; the first component of the result is
that object's value after the call, the second is what `getOpts`
returns or throws. -/
def getOpts (fs : FileSystem) (defaults userOpts : Opts) :
    Opts × Except JsErr Config :=
  let opts := lodashMerge defaults userOpts
  (opts, validateAndTransformOpts fs opts)

/-! ### Auxiliary lemmas -/

theorem digitChar_isDigit {d : Nat} (h : d < 10) : (digitChar d).isDigit = true := by
  interval_cases d <;> rfl

theorem digitChar_toNat {d : Nat} (h : d < 10) : (digitChar d).toNat - 48 = d := by
  interval_cases d <;> rfl

theorem digitChar_ne_dash {d : Nat} (h : d < 10) : digitChar d ≠ '-' := by
  interval_cases d <;> decide

theorem natToStrAux_mem_isDigit :
    ∀ fuel n, n < fuel → ∀ c ∈ natToStrAux fuel n, c.isDigit = true := by
  intro fuel
  induction fuel with
  | zero => intro n h; omega
  | succ f ih =>
    intro n h c hc
    by_cases h10 : n < 10
    · simp only [natToStrAux, if_pos h10, List.mem_singleton] at hc
      exact hc ▸ digitChar_isDigit h10
    · simp only [natToStrAux, if_neg h10, List.mem_append, List.mem_singleton] at hc
      rcases hc with hc | hc
      · have hdiv : n / 10 < f := by
          have h2 : n / 10 < n := Nat.div_lt_self (by omega) (by omega)
          omega
        exact ih (n / 10) hdiv c hc
      · exact hc ▸ digitChar_isDigit (Nat.mod_lt _ (by omega))

theorem natToStrAux_ne_nil :
    ∀ fuel n, n < fuel → natToStrAux fuel n ≠ [] := by
  intro fuel n h
  cases fuel with
  | zero => omega
  | succ f =>
    by_cases h10 : n < 10
    · simp [natToStrAux, if_pos h10]
    · simp [natToStrAux, if_neg h10]

theorem natToStrAux_foldl :
    ∀ fuel n a, n < fuel →
      (natToStrAux fuel n).foldl (fun m c => m * 10 + (c.toNat - 48)) a =
        a * 10 ^ (natToStrAux fuel n).length + n := by
  intro fuel
  induction fuel with
  | zero => intro n a h; omega
  | succ f ih =>
    intro n a h
    by_cases h10 : n < 10
    · simp only [natToStrAux, if_pos h10, List.foldl_cons, List.foldl_nil,
        List.length_singleton]
      rw [digitChar_toNat h10]
      ring
    · have hdiv : n / 10 < f := by
        have h2 : n / 10 < n := Nat.div_lt_self (by omega) (by omega)
        omega
      simp only [natToStrAux, if_neg h10, List.foldl_append, List.foldl_cons,
        List.foldl_nil, List.length_append, List.length_singleton]
      rw [ih (n / 10) a hdiv, digitChar_toNat (Nat.mod_lt _ (by omega)), pow_succ]
      ring_nf
      omega

theorem natToStr_mem_isDigit {n : Nat} : ∀ c ∈ natToStr n, c.isDigit = true :=
  natToStrAux_mem_isDigit (n + 1) n (by omega)

theorem natToStr_ne_nil (n : Nat) : natToStr n ≠ [] :=
  natToStrAux_ne_nil (n + 1) n (by omega)

theorem decodeDigits_natToStr (n : Nat) : decodeDigits (natToStr n) = n := by
  have := natToStrAux_foldl (n + 1) n 0 (by omega)
  simpa [decodeDigits, natToStr] using this

theorem jsNumber_natToStr (n : Nat) : jsNumber (natToStr n) = some n := by
  unfold jsNumber
  rw [if_pos, decodeDigits_natToStr]
  exact List.all_eq_true.mpr fun c hc => natToStr_mem_isDigit c hc

theorem isDigits_natToStr (n : Nat) : isDigits (natToStr n) = true := by
  unfold isDigits
  rw [Bool.and_eq_true, Bool.not_eq_true']
  constructor
  · cases hn : natToStr n with
    | nil => exact absurd hn (natToStr_ne_nil n)
    | cons c t => rfl
  · exact List.all_eq_true.mpr fun c hc => natToStr_mem_isDigit c hc

theorem dash_not_mem_natToStr (n : Nat) : '-' ∉ natToStr n := by
  intro h
  have := natToStr_mem_isDigit (n := n) '-' h
  simp at this

theorem splitOnChar_ne_nil (sep : Char) : ∀ s, splitOnChar sep s ≠ [] := by
  intro s
  induction s with
  | nil => simp [splitOnChar]
  | cons c cs ih =>
    by_cases hc : c = sep
    · simp [splitOnChar, if_pos hc]
    · simp only [splitOnChar, if_neg hc]
      obtain ⟨p, ps, hp⟩ := List.exists_cons_of_ne_nil ih
      rw [hp]
      simp [List.modifyHead]

theorem splitOnChar_not_mem {sep : Char} : ∀ {s}, sep ∉ s → splitOnChar sep s = [s] := by
  intro s
  induction s with
  | nil => intro _; rfl
  | cons c cs ih =>
    intro h
    have hc : ¬c = sep := fun e => h (e ▸ List.mem_cons_self c cs)
    have hcs : sep ∉ cs := fun e => h (List.mem_cons_of_mem _ e)
    simp [splitOnChar, if_neg hc, ih hcs, List.modifyHead]

theorem splitOnChar_pair_mem {sep : Char} {s a b : JStr}
    (h : splitOnChar sep s = [a, b]) : sep ∈ s := by
  by_contra hn
  rw [splitOnChar_not_mem hn] at h
  simp at h

theorem splitOnChar_append {sep : Char} :
    ∀ (A l : JStr) (p : JStr) (ps : List JStr), sep ∉ A →
      splitOnChar sep l = p :: ps →
      splitOnChar sep (A ++ l) = (A ++ p) :: ps := by
  intro A
  induction A with
  | nil => intro l p ps _ h; simpa using h
  | cons c A' ih =>
    intro l p ps hA h
    have hc : ¬c = sep := fun e => hA (e ▸ List.mem_cons_self c A')
    have hA' : sep ∉ A' := fun e => hA (List.mem_cons_of_mem _ e)
    have hrec := ih l p ps hA' h
    simp only [List.cons_append, splitOnChar, if_neg hc, List.append_eq]
    rw [hrec]
    simp [List.modifyHead]

theorem splitOnChar_sandwich {sep : Char} {A B : JStr}
    (hA : sep ∉ A) (hB : sep ∉ B) :
    splitOnChar sep (A ++ sep :: B) = [A, B] := by
  have h1 : splitOnChar sep (sep :: B) = [] :: [B] := by
    simp [splitOnChar, splitOnChar_not_mem hB]
  have := splitOnChar_append A (sep :: B) [] [B] hA h1
  simpa using this

theorem mem_splitOnChar_of_mem {sep c : Char} :
    ∀ {s}, c ∈ s → c ≠ sep → ∃ p ∈ splitOnChar sep s, c ∈ p := by
  intro s
  induction s with
  | nil => intro h; exact absurd h (List.not_mem_nil c)
  | cons x xs ih =>
    intro hc hne
    by_cases hx : x = sep
    · subst hx
      have hcs : c ∈ xs := by
        rcases List.mem_cons.mp hc with h | h
        · exact absurd h hne
        · exact h
      obtain ⟨p, hp, hcp⟩ := ih hcs hne
      exact ⟨p, by simp [splitOnChar, List.mem_cons, hp], hcp⟩
    · obtain ⟨p0, ps, hps⟩ := List.exists_cons_of_ne_nil (splitOnChar_ne_nil sep xs)
      have hsplit : splitOnChar sep (x :: xs) = (x :: p0) :: ps := by
        simp [splitOnChar, if_neg hx, hps, List.modifyHead]
      rcases List.mem_cons.mp hc with h | h
      · exact ⟨x :: p0, by simp [hsplit], by simp [h]⟩
      · obtain ⟨p, hp, hcp⟩ := ih h hne
        rw [hps] at hp
        rcases List.mem_cons.mp hp with h' | h'
        · exact ⟨x :: p0, by simp [hsplit], by simp [h' ▸ hcp]⟩
        · exact ⟨p, by simp [hsplit, List.mem_cons, h'], hcp⟩

theorem splitOnChar_all_digits_mem {sep : Char} {s : JStr}
    (h : (splitOnChar sep s).all isDigits = true) {c : Char} (hc : c ∈ s) :
    c.isDigit = true ∨ c = sep := by
  by_cases he : c = sep
  · exact Or.inr he
  · obtain ⟨p, hp, hcp⟩ := mem_splitOnChar_of_mem hc he
    have hdig : isDigits p = true := List.all_eq_true.mp h p hp
    rw [isDigits, Bool.and_eq_true] at hdig
    exact Or.inl (List.all_eq_true.mp hdig.2 c hcp)

theorem mapM_jsNumber_of_all_digits :
    ∀ parts : List JStr, parts.all isDigits = true →
      parts.mapM jsNumber = some (parts.map decodeDigits) := by
  intro parts
  induction parts with
  | nil => intro _; rfl
  | cons p ps ih =>
    intro h
    rw [List.all_cons, Bool.and_eq_true] at h
    have hp : jsNumber p = some (decodeDigits p) := by
      unfold jsNumber
      rw [if_pos]
      rw [isDigits, Bool.and_eq_true] at h
      exact h.1.2
    rw [List.mapM_cons, hp, ih h.2]
    rfl

theorem sortByAsc_sorted (l : List Nat) : List.Sorted (· ≤ ·) (sortByAsc l) :=
  List.sorted_insertionSort _ l

theorem sortByAsc_perm (l : List Nat) : (sortByAsc l).Perm l :=
  List.perm_insertionSort _ l

theorem lodashRange_sorted {a b : Nat} (h : a < b) :
    List.Sorted (· ≤ ·) (lodashRange a b) := by
  unfold lodashRange
  rw [if_pos h]
  exact List.Pairwise.map _ (fun _ _ hlt => Nat.add_le_add_left (le_of_lt hlt) a)
    (List.pairwise_lt_range _)

theorem lodashRange_ne_nil {a b : Nat} (h : a < b) :
    lodashRange a b ≠ [] := by
  unfold lodashRange
  rw [if_pos h]
  simp only [ne_eq, List.map_eq_nil_iff, List.range_eq_nil]
  omega

theorem lodashRange_eq_range' {a b : Nat} (h : a < b) :
    lodashRange a b = List.range' a (b - a) := by
  rw [lodashRange, if_pos h, List.range'_eq_map_range]

theorem jsNumber_of_isDigits {p : JStr} (h : isDigits p = true) :
    jsNumber p = some (decodeDigits p) := by
  unfold jsNumber
  rw [if_pos]
  rw [isDigits, Bool.and_eq_true] at h
  exact h.2

theorem parseZoomRange_comma {s : JStr} (hd : '-' ∉ s)
    (h : (splitOnChar ',' s).all isDigits = true) :
    parseZoomRange s = some (sortByAsc ((splitOnChar ',' s).map decodeDigits)) := by
  unfold parseZoomRange
  rw [if_neg hd, mapM_jsNumber_of_all_digits _ h]

/-! ### The claims about the zoom parser -/

/-- **C4**: for all non-negative integers `a ≤ b`, parsing the zoom range
string `"a-b"` yields exactly the ascending inclusive integer sequence
`[a, a+1, …, b]`, i.e. `List.range' a (b + 1 - a)`. -/
theorem parseZoomRange_dash_range (a b : Nat) (h : a ≤ b) :
    parseZoomRange (natToStr a ++ '-' :: natToStr b) =
      some (List.range' a (b + 1 - a)) := by
  have hmem : '-' ∈ natToStr a ++ '-' :: natToStr b :=
    List.mem_append_right _ (List.mem_cons_self _ _)
  have hsplit : splitOnChar '-' (natToStr a ++ '-' :: natToStr b) =
      [natToStr a, natToStr b] :=
    splitOnChar_sandwich (dash_not_mem_natToStr a) (dash_not_mem_natToStr b)
  unfold parseZoomRange
  rw [if_pos hmem, hsplit]
  simp [jsNumber_natToStr, decodeDigits_natToStr,
    lodashRange_eq_range' (show a < b + 1 by omega)]

/-- Witness for C4 at `a = 3`, `b = 5`: `"3-5"` parses to `[3, 4, 5]`. -/
theorem parseZoomRange_dash_range_witness :
    parseZoomRange (natToStr 3 ++ '-' :: natToStr 5) = some (List.range' 3 3) :=
  parseZoomRange_dash_range 3 5 (by decide)

/-- **C3** refuted as frozen: `"3,3,5"` matches the zoom grammar but parses
to `[3,3,5]`, whose elements are not distinct, and `"9-3"` matches the
grammar but parses to lodash's descending `range(9, 4) = [9,8,7,6,5]`
(step defaults to -1 when start > end), which is not ascending. -/
theorem zoomSpec_distinct_nonempty_refuted :
    matchesZoomGrammar "3,3,5".data = true ∧
    parseZoomRange "3,3,5".data = some [3, 3, 5] ∧
    ([3, 3, 5] : List Nat).count 3 = 2 ∧
    matchesZoomGrammar "9-3".data = true ∧
    parseZoomRange "9-3".data = some [9, 8, 7, 6, 5] ∧
    ([9, 8, 7, 6, 5] : List Nat).Chain' (· > ·) := by
  refine ⟨by decide, by decide, by decide, by decide, by decide, ?_⟩
  simp [List.chain'_cons]

/-- **C3** (amended): for every zoom string matching the grammar
`^((\d+-\d+)|(\d+(,\d+)*))$` the parser succeeds with a sequence of
non-negative integers; a comma list yields the parsed integers sorted
ascending, keeping duplicates, non-empty; a range `a-b` with `a ≤ b`
yields an ascending non-empty sequence, while a reversed range yields
lodash's stepped-down range (descending, or empty when `a = b + 1`). -/
theorem parseZoomRange_sorted_of_grammar (s : JStr)
    (h : matchesZoomGrammar s = true) :
    ∃ l, parseZoomRange s = some l ∧
      ('-' ∉ s → List.Sorted (· ≤ ·) l ∧ l ≠ []) ∧
      (∀ p q, splitOnChar '-' s = [p, q] → decodeDigits p ≤ decodeDigits q →
        List.Sorted (· ≤ ·) l ∧ l ≠ []) := by
  rw [matchesZoomGrammar, Bool.or_eq_true] at h
  by_cases hd : '-' ∈ s
  · have hfirst : (match splitOnChar '-' s with
        | [a, b] => isDigits a && isDigits b
        | _ => false) = true := by
      rcases h with h | h
      · exact h
      · exfalso
        rcases splitOnChar_all_digits_mem h hd with hdig | heq
        · exact absurd hdig (by decide)
        · exact absurd heq (by decide)
    rcases hsp : splitOnChar '-' s with _ | ⟨a, rest⟩
    · rw [hsp] at hfirst; exact absurd hfirst (by simp)
    · rcases rest with _ | ⟨b, rest2⟩
      · rw [hsp] at hfirst; exact absurd hfirst (by simp)
      · rcases rest2 with _ | ⟨c, rest3⟩
        · rw [hsp] at hfirst
          rw [Bool.and_eq_true] at hfirst
          refine ⟨lodashRange (decodeDigits a) (decodeDigits b + 1), ?_,
            fun hds => absurd hd hds, ?_⟩
          · unfold parseZoomRange
            rw [if_pos hd, hsp]
            simp [jsNumber_of_isDigits hfirst.1, jsNumber_of_isDigits hfirst.2]
          · intro p q hpq hle
            obtain ⟨rfl, rfl⟩ : a = p ∧ b = q := by simpa using hpq
            have hlt : decodeDigits a < decodeDigits b + 1 := by omega
            exact ⟨lodashRange_sorted hlt, lodashRange_ne_nil hlt⟩
        · rw [hsp] at hfirst; exact absurd hfirst (by simp)
  · have hcomma : (splitOnChar ',' s).all isDigits = true := by
      rcases h with h | h
      · exfalso
        rcases hsp : splitOnChar '-' s with _ | ⟨a, rest⟩
        · rw [hsp] at h; exact absurd h (by simp)
        · rcases rest with _ | ⟨b, rest2⟩
          · rw [hsp] at h; exact absurd h (by simp)
          · rcases rest2 with _ | ⟨c, rest3⟩
            · exact hd (splitOnChar_pair_mem hsp)
            · rw [hsp] at h; exact absurd h (by simp)
      · exact h
    refine ⟨sortByAsc ((splitOnChar ',' s).map decodeDigits),
      parseZoomRange_comma hd hcomma, fun _ => ⟨sortByAsc_sorted _, ?_⟩,
      fun p q hpq _ => absurd (splitOnChar_pair_mem hpq) hd⟩
    have hlen :=
      (sortByAsc_perm ((splitOnChar ',' s).map decodeDigits)).length_eq
    intro hnil
    obtain ⟨p, ps, hps⟩ := List.exists_cons_of_ne_nil (splitOnChar_ne_nil ',' s)
    rw [hnil] at hlen
    simp [hps] at hlen

/-- Witness for the amended C3 at `"9,3,5"`. -/
theorem parseZoomRange_sorted_of_grammar_witness :
    ∃ l, parseZoomRange "9,3,5".data = some l ∧
      ('-' ∉ "9,3,5".data → List.Sorted (· ≤ ·) l ∧ l ≠ []) ∧
      (∀ p q, splitOnChar '-' "9,3,5".data = [p, q] →
        decodeDigits p ≤ decodeDigits q →
        List.Sorted (· ≤ ·) l ∧ l ≠ []) :=
  parseZoomRange_sorted_of_grammar "9,3,5".data (by decide)

/-- **C5**: a comma-separated zoom list is returned sorted ascending
without removing duplicates: the result is a sorted permutation of the
parsed integers; concretely `"9,3,5"` yields `[3,5,9]` and `"3,3,5"`
yields `[3,3,5]`. -/
theorem parseZoomRange_comma_sorted_not_dedup :
    parseZoomRange "9,3,5".data = some [3, 5, 9] ∧
    parseZoomRange "3,3,5".data = some [3, 3, 5] ∧
    ∀ s : JStr, '-' ∉ s → (splitOnChar ',' s).all isDigits = true →
      ∃ l, parseZoomRange s = some l ∧
        l.Perm ((splitOnChar ',' s).map decodeDigits) ∧
        List.Sorted (· ≤ ·) l := by
  refine ⟨by decide, by decide, ?_⟩
  intro s hd h
  exact ⟨_, parseZoomRange_comma hd h, sortByAsc_perm _, sortByAsc_sorted _⟩

/-- Witness for C5's universal part at `"3,3,5"`. -/
theorem parseZoomRange_comma_sorted_not_dedup_witness :
    ∃ l, parseZoomRange "3,3,5".data = some l ∧
      l.Perm ((splitOnChar ',' "3,3,5".data).map decodeDigits) ∧
      List.Sorted (· ≤ ·) l :=
  parseZoomRange_comma_sorted_not_dedup.2.2 "3,3,5".data (by decide) (by decide)

/-! ### The claims about the buffer and number/function parsers -/

/-- **C10**: for every input string `parseBuffer` returns the string's
leading numeric value (via `parseFloat`) as `radius`, and `unit` is miles
exactly when the string ends in the literal suffix `"mi"`, kilometers
otherwise; concretely `"10km"` gives radius 10 kilometers and `"2.5mi"`
gives radius 2.5 miles. -/
theorem parseBuffer_spec :
    (∀ s : JStr, (parseBuffer s).radius = jsParseFloat s ∧
      ((parseBuffer s).unit = BufferUnit.miles ↔
        List.isSuffixOf "mi".data s = true)) ∧
    parseBuffer "10km".data =
      { radius := some 10, unit := BufferUnit.kilometers } ∧
    parseBuffer "2.5mi".data =
      { radius := some (5 / 2 : Rat), unit := BufferUnit.miles } := by
  refine ⟨fun s => ⟨rfl, ?_⟩, ?_, ?_⟩
  · unfold parseBuffer
    by_cases h : List.isSuffixOf "mi".data s = true
    · simp [h]
    · simp [h]
  · have hp : jsParseFloatParts "10km".data = some ⟨false, 10, 0, 0, 0⟩ := by decide
    have hr : jsParseFloat "10km".data = some 10 := by
      rw [jsParseFloat, hp, Option.map_some']
      norm_num [partsToRat]
    have hu : List.isSuffixOf "mi".data "10km".data = false := by decide
    simp [parseBuffer, hr, hu]
  · have hp : jsParseFloatParts "2.5mi".data = some ⟨false, 2, 5, 1, 0⟩ := by decide
    have hr : jsParseFloat "2.5mi".data = some (5 / 2 : Rat) := by
      rw [jsParseFloat, hp, Option.map_some']
      norm_num [partsToRat]
    have hu : List.isSuffixOf "mi".data "2.5mi".data = true := by decide
    simp [parseBuffer, hr, hu]

/-- **C6**: on a string matching `^\d+$`, `parseNumberOrZoomFunction`
returns a constant function when the denoted integer is a finite double —
applied to any integer zoom it yields exactly that parsed number — and
when the integer is not finite it fails with the tagged `ArgumentError`
(the spec's `ConfigError`). -/
theorem parseNumberOrZoomFunction_digits (val : JStr) (h : isDigits val = true) :
    (jsFinite (decodeDigits val) = true →
      parseNumberOrZoomFunction val none =
        .ok (ZoomFn.const (decodeDigits val)) ∧
      ∀ z : Int, ZoomFn.apply (ZoomFn.const (decodeDigits val)) z =
        some (decodeDigits val)) ∧
    (jsFinite (decodeDigits val) = false →
      ∃ e, parseNumberOrZoomFunction val none = .error e ∧
        e.argumentError = true) := by
  constructor
  · intro hf
    refine ⟨?_, fun z => rfl⟩
    unfold parseNumberOrZoomFunction assertNumber
    rw [if_pos h]
    simp [hf, Except.map]
  · intro hf
    refine ⟨throwArgumentError [], ?_, rfl⟩
    unfold parseNumberOrZoomFunction assertNumber
    rw [if_pos h]
    simp [hf, Except.map]

set_option maxRecDepth 16384 in
/-- Witness for C6 at `"5"`: a constant function, evaluated at zoom 7. -/
theorem parseNumberOrZoomFunction_digits_witness :
    parseNumberOrZoomFunction "5".data none = .ok (ZoomFn.const 5) ∧
    ZoomFn.apply (ZoomFn.const 5) 7 = some 5 :=
  ⟨((parseNumberOrZoomFunction_digits "5".data (by decide)).1 (by decide)).1,
    ((parseNumberOrZoomFunction_digits "5".data (by decide)).1 (by decide)).2 7⟩

/-- **C2** refuted as frozen: `"((("` neither matches `^\d+$` nor is valid
expression syntax, yet the error raised at compile time is the engine
`SyntaxError`, which does not carry `argumentError: true`. -/
theorem expr_compile_error_untagged_refuted :
    isDigits "(((".data = false ∧
    exprOk "(((".data = false ∧
    parseNumberOrZoomFunction "(((".data none =
      .error { message := "SyntaxError".data, argumentError := false } := by
  decide

/-- **C2** (amended): for every string that does not match `^\d+$`, any
error `parseNumberOrZoomFunction` raises at compile time carries
`argumentError = false`, never `true` — whatever `new Function` throws
propagates untagged, because the expression path has no `try`/`catch` and
never calls `throwArgumentError` (only the numeric path tags its error).
The statement is conditional on an error being raised, so it does not
depend on exactly which strings the engine's grammar rejects. -/
theorem parseNumberOrZoomFunction_syntax_error (val : JStr)
    (h1 : isDigits val = false) (e : JsErr)
    (he : parseNumberOrZoomFunction val none = .error e) :
    e.argumentError = false := by
  by_cases h2 : exprOk val = true
  · simp [parseNumberOrZoomFunction, h1, h2] at he
  · rw [Bool.not_eq_true] at h2
    simp only [parseNumberOrZoomFunction, h1, h2, Bool.false_eq_true,
      if_false, Except.error.injEq] at he
    rw [← he]

/-- Witness for the amended C2 at `"((("`, whose unbalanced parentheses no
JavaScript expression grammar accepts: the raised error is untagged. -/
theorem parseNumberOrZoomFunction_syntax_error_witness :
    ({ message := "SyntaxError".data, argumentError := false } : JsErr).argumentError =
      false :=
  parseNumberOrZoomFunction_syntax_error "(((".data (by decide)
    { message := "SyntaxError".data, argumentError := false } (by decide)

/-! ### The claims about the url template, input file and validator -/

theorem ok_bind_unit {ε α : Type} (k : Unit → Except ε α) :
    ((Except.ok () : Except ε Unit) >>= k) = k () := rfl

theorem error_bind_unit {ε α : Type} (e : ε) (k : Unit → Except ε α) :
    ((Except.error e : Except ε Unit) >>= k) = Except.error e := rfl

theorem throw_eq_error {ε α : Type} (e : ε) :
    (throw e : Except ε α) = Except.error e := rfl

/-- **C7**: `assertTemplateUrl` succeeds exactly when the url starts with
`http:` or `https:` and contains the three literal placeholders; every
failure is a tagged `ArgumentError`, and whenever the scheme is fine (so
the failure is a missing placeholder) the message names a placeholder that
is indeed missing from the url.  An absent url is coerced to the string
`"undefined"`, which fails the scheme test. -/
theorem assertTemplateUrl_spec (url : JStr) :
    (assertTemplateUrl url = .ok () ↔
      (startsWithScheme url = true ∧
       hasSubstr url "\x7bx\x7d".data = true ∧
       hasSubstr url "\x7by\x7d".data = true ∧
       hasSubstr url "\x7bz\x7d".data = true)) ∧
    (∀ e, assertTemplateUrl url = .error e → e.argumentError = true ∧
      (startsWithScheme url = true →
        ∃ p ∈ ["\x7bx\x7d".data, "\x7by\x7d".data, "\x7bz\x7d".data],
          e.message = "Template url is missing parameter: ".data ++ p ∧
          hasSubstr url p = false)) := by
  by_cases hs : startsWithScheme url = true
  · by_cases hx : hasSubstr url "\x7bx\x7d".data = true
    · by_cases hy : hasSubstr url "\x7by\x7d".data = true
      · by_cases hz : hasSubstr url "\x7bz\x7d".data = true
        · constructor
          · simp [assertTemplateUrl, assertTemplateUrlParameter, hs, hx, hy, hz, ok_bind_unit, error_bind_unit]
          · intro e he
            simp [assertTemplateUrl, assertTemplateUrlParameter, hs, hx, hy, hz, ok_bind_unit, error_bind_unit] at he
        · rw [Bool.not_eq_true] at hz
          constructor
          · simp [assertTemplateUrl, assertTemplateUrlParameter, hs, hx, hy, hz, ok_bind_unit, error_bind_unit]
          · intro e he
            simp [assertTemplateUrl, assertTemplateUrlParameter, hs, hx, hy, hz,
              ok_bind_unit, error_bind_unit, throwArgumentError] at he
            subst he
            exact ⟨rfl, fun _ => ⟨"\x7bz\x7d".data, by simp, rfl, hz⟩⟩
      · rw [Bool.not_eq_true] at hy
        constructor
        · simp [assertTemplateUrl, assertTemplateUrlParameter, hs, hx, hy, ok_bind_unit, error_bind_unit]
        · intro e he
          simp [assertTemplateUrl, assertTemplateUrlParameter, hs, hx, hy,
            ok_bind_unit, error_bind_unit, throwArgumentError] at he
          subst he
          exact ⟨rfl, fun _ => ⟨"\x7by\x7d".data, by simp, rfl, hy⟩⟩
    · rw [Bool.not_eq_true] at hx
      constructor
      · simp [assertTemplateUrl, assertTemplateUrlParameter, hs, hx, ok_bind_unit, error_bind_unit]
      · intro e he
        simp [assertTemplateUrl, assertTemplateUrlParameter, hs, hx,
          ok_bind_unit, error_bind_unit, throwArgumentError] at he
        subst he
        exact ⟨rfl, fun _ => ⟨"\x7bx\x7d".data, by simp, rfl, hx⟩⟩
  · rw [Bool.not_eq_true] at hs
    constructor
    · simp [assertTemplateUrl, hs, ok_bind_unit, error_bind_unit, throw_eq_error]
    · intro e he
      simp [assertTemplateUrl, throwArgumentError, hs, ok_bind_unit, error_bind_unit, throw_eq_error] at he
      subst he
      exact ⟨rfl, fun hcon => by rw [hs] at hcon; exact absurd hcon (by decide)⟩

/-- Witness for C7 at a url whose scheme is fine but which lacks `{y}`:
the thrown error is tagged and names `{y}`. -/
theorem assertTemplateUrl_spec_witness :
    assertTemplateUrl "http://t/\x7bx\x7d/\x7bz\x7d".data =
      .error (throwArgumentError
        "Template url is missing parameter: \x7by\x7d".data) ∧
    (throwArgumentError
      "Template url is missing parameter: \x7by\x7d".data).argumentError = true :=
  ⟨by decide,
    ((assertTemplateUrl_spec "http://t/\x7bx\x7d/\x7bz\x7d".data).2
      (throwArgumentError "Template url is missing parameter: \x7by\x7d".data)
      (by decide)).1⟩

/-- **C9**: `parseInput` yields `null` for an absent path — uniformly in
the filesystem, which it never consults; a file whose content is not valid
JSON raises `ArgumentError("Invalid JSON")`; valid JSON content is
returned exactly as parsed.  Concretely `"{not json"` raises
`Invalid JSON`, and `{"type":"Point","coordinates":[1,2]}` parses to that
object unchanged. -/
theorem parseInput_spec :
    (∀ fs : FileSystem, parseInput fs none = .ok none) ∧
    (∀ (fs : FileSystem) (path content : JStr), path ≠ [] →
      fs path = some content → jsonParse content = none →
      parseInput fs (some path) =
        .error (throwArgumentError "Invalid JSON".data)) ∧
    (∀ (fs : FileSystem) (path content : JStr) (j : Json), path ≠ [] →
      fs path = some content → jsonParse content = some j →
      parseInput fs (some path) = .ok (some j)) ∧
    parseInput (fun _ => some "\x7bnot json".data) (some "f".data) =
      .error (throwArgumentError "Invalid JSON".data) ∧
    parseInput
        (fun _ => some "\x7b\"type\":\"Point\",\"coordinates\":[1,2]\x7d".data)
        (some "f".data) =
      .ok (some (Json.obj [("type".data, Json.str "Point".data),
        ("coordinates".data, Json.arr [Json.num ['1'], Json.num ['2']])])) := by
  refine ⟨fun fs => rfl, ?_, ?_, rfl, rfl⟩
  · intro fs path content hne hfs hj
    have ht : jsTruthy (some path) = true := by
      cases path with
      | nil => exact absurd rfl hne
      | cons c t => rfl
    simp [parseInput, ht, hfs, hj]
  · intro fs path content j hne hfs hj
    have ht : jsTruthy (some path) = true := by
      cases path with
      | nil => exact absurd rfl hne
      | cons c t => rfl
    simp [parseInput, ht, hfs, hj]

/-- Witness for C9's universal parts at a concrete path and content. -/
theorem parseInput_spec_witness :
    parseInput (fun _ => some "\x7bnot json".data) (some "g".data) =
      .error (throwArgumentError "Invalid JSON".data) :=
  parseInput_spec.2.1 (fun _ => some "\x7bnot json".data) "g".data
    "\x7bnot json".data (by decide) rfl (by rfl)

/-- **C8**: whenever `point` is truthy and `buffer` is not, validation
fails at once with the tagged point/buffer `ArgumentError` — the very
first check of `validateAndTransformOpts` — so no parsing or
transformation runs and no configuration, even partial, is produced,
whatever the remaining options and the filesystem contain. -/
theorem validateAndTransformOpts_point_without_buffer
    (fs : FileSystem) (opts : Opts)
    (hp : jsTruthy opts.point = true) (hb : jsTruthy opts.buffer = false) :
    validateAndTransformOpts fs opts =
      .error (throwArgumentError
        "When --point is set, --buffer must also be set".data) := by
  unfold validateAndTransformOpts
  rw [hp, hb]
  rfl

/-- Witness for C8: a bag with only `point` set. -/
theorem validateAndTransformOpts_point_without_buffer_witness :
    validateAndTransformOpts (fun _ => none)
        { point := some "62.31,23.12".data } =
      .error (throwArgumentError
        "When --point is set, --buffer must also be set".data) :=
  validateAndTransformOpts_point_without_buffer (fun _ => none)
    { point := some "62.31,23.12".data } (by decide) (by decide)

/-- **C1** evaluated at a failing input (the claim is right, the code is
not): `_.merge(defaultOpts, userOpts)` writes the user bag into the
module-level `defaultOpts`.  After a `getOpts` call whose argv carried
`--zoom 5`, the shared defaults' `zoom` is `"5"` instead of the built-in
`"3-9"`, so the defaults are not left unchanged and later calls observe
mutated state. -/
theorem getOpts_mutates_defaults :
    defaultOpts.zoom = some "3-9".data ∧
    (getOpts (fun _ => none) defaultOpts { zoom := some "5".data }).1.zoom =
      some "5".data ∧
    (getOpts (fun _ => none) defaultOpts { zoom := some "5".data }).1 ≠
      defaultOpts := by
  refine ⟨rfl, rfl, fun hcontra => ?_⟩
  exact absurd (congrArg Opts.zoom hcontra) (by decide)

example : parseZoomRange "3-9".data = some [3, 4, 5, 6, 7, 8, 9] := by decide
example : parseZoomRange "9-3".data = some [9, 8, 7, 6, 5] := by decide
example : parseZoomRange "4-3".data = some [] := by decide
example : exprOk "z<<1".data = true := by decide
example : exprOk "Math.max(z,2)".data = true := by decide
example : exprOk "return".data = false := by decide
example : parseZoomRange "9,3,5".data = some [3, 5, 9] := by decide
example : parseZoomRange "3,3,5".data = some [3, 3, 5] := by decide
example : matchesZoomGrammar "3-9".data = true := by decide
example : matchesZoomGrammar "9,3,5".data = true := by decide
example : matchesZoomGrammar "3-9,5".data = false := by decide
example : matchesZoomGrammar "".data = false := by decide
example : natToStr 230 = "230".data := by decide
example : hasSubstr "http://a/\x7bz\x7d".data "\x7bz\x7d".data = true := by decide

end Tilewarm
